import Mathlib

/-!
Verification development for the marketingOS campaign pipeline.

Each definition is a shallow embedding of a function from the repository:
  * template engine        src/lib/utils/template-parser.ts
  * rate limiter           src/lib/redis/client.ts
  * campaign dispatch      src/app/api/jobs/campaign-process/route.ts
  * send-job handler       app/api/jobs/email-send/route.ts
  * open tracking pixel    app/api/track/open/[campaignLeadId]/route.ts
  * provider webhook       app/api/webhooks/resend/route.ts
  * warm-up progression    app/api/warmup/progress/route.ts
  * SQL RPC functions      supabase migration 001 (increment_campaign_stat etc.)

JavaScript strings are modelled as Lean String / List Char, machine numbers
as Nat (all quantities involved are non-negative counters, limits or seconds),
fallible calls as Except, and the database rows touched by a handler as
explicit record state threaded through the handler.
-/

namespace MarketingOS

/-! ### Template engine: replaceVariables (template-parser.ts lines 38-45)

The source is
  text.replace of the global regex matching two opening braces, a captured
  group of one or more word characters, then two closing braces,
  with callback (match, key) => variables[key] || match.

The JavaScript regex word class is ASCII letters, digits and underscore.
The replace callback returns the stored value only when it is truthy, so a
key bound to the empty string leaves the token unchanged, exactly like an
absent key.  The scanner advances one position after a failed match attempt
and past the whole token after a successful one (whether or not the token
was substituted), which the fuel-indexed recursion below reproduces; fuel
equal to the length of the text is always sufficient because every step
consumes at least one character. -/

def isWordChar (c : Char) : Bool :=
  c.isAlpha || c.isDigit || c == '_'

/-- Attempt to match the token regex at the head of the character list.
Returns the captured key and the remainder after the closing braces. -/
def matchToken (xs : List Char) : Option (List Char × List Char) :=
  match xs with
  | '{' :: '{' :: cs =>
    match cs.dropWhile isWordChar with
    | '}' :: '}' :: after =>
        if cs.takeWhile isWordChar = [] then none
        else some (cs.takeWhile isWordChar, after)
    | _ => none
  | _ => none

/-- The literal text of a token, as it appears in the input. -/
def tokenText (key : List Char) : List Char :=
  '{' :: '{' :: (key ++ '}' :: '}' :: [])

/-- First-match association-list lookup, modelling property access on the
JavaScript variables object. -/
def lookupVar : List (List Char × List Char) → List Char → Option (List Char)
  | [], _ => none
  | (k, v) :: rest, key => if k = key then some v else lookupVar rest key

/-- One pass of the global regex replace.  On a match: substitute when the
looked-up value is truthy (present and non-empty), otherwise emit the token
unchanged; either way resume after the token.  On a failed attempt, emit one
character and resume at the next position. -/
def replaceAux (vars : List (List Char × List Char)) : Nat → List Char → List Char
  | 0, cs => cs
  | _ + 1, [] => []
  | fuel + 1, c :: cs =>
    match matchToken (c :: cs) with
    | some (key, after) =>
      match lookupVar vars key with
      | some v =>
          if v = [] then tokenText key ++ replaceAux vars fuel after
          else v ++ replaceAux vars fuel after
      | none => tokenText key ++ replaceAux vars fuel after
    | none => c :: replaceAux vars fuel cs

/-- replaceVariables from template-parser.ts. -/
def replaceVariables (text : String) (vars : List (String × String)) : String :=
  ⟨replaceAux (vars.map fun p => (p.1.data, p.2.data)) text.data.length text.data⟩

/-- Whether the token regex matches anywhere in the text (same scanner as
the replace pass). -/
def hasTokenAux : Nat → List Char → Bool
  | 0, _ => false
  | _ + 1, [] => false
  | fuel + 1, c :: cs =>
    match matchToken (c :: cs) with
    | some _ => true
    | none => hasTokenAux fuel cs

def hasToken (text : String) : Bool :=
  hasTokenAux text.data.length text.data

/-- The successive regex matches of the text, in scan order, as captured
keys; extractVariables (template-parser.ts lines 68-72) is this list with
duplicates removed. -/
def extractAux : Nat → List Char → List (List Char)
  | 0, _ => []
  | _ + 1, [] => []
  | fuel + 1, c :: cs =>
    match matchToken (c :: cs) with
    | some (key, after) => key :: extractAux fuel after
    | none => extractAux fuel cs

def extractTokens (text : String) : List (List Char) :=
  extractAux text.data.length text.data

/-! ### Rate limiter (redis/client.ts lines 18-27)

canSendEmail reads the daily and hourly counters from the cache and compares
them strictly against the daily limit and against the hourly limit derived
as the ceiling of dailyLimit / 8.  For natural numbers that ceiling is
(dailyLimit + 7) / 8. -/

def canSendEmail (dailyCount hourlyCount dailyLimit : Nat) : Bool :=
  decide (dailyCount < dailyLimit) && decide (hourlyCount < (dailyLimit + 7) / 8)

/-! ### Campaign dispatch pipeline (api/jobs/campaign-process/route.ts)

The handler state is the campaign row (status, completion timestamp), its
campaign_leads rows and the list of messages published to the queue so far.
Clock inputs (minutes into the day, weekday with Monday 1 .. Sunday 7 as
produced by getDay() with Sunday mapped from 0 to 7) and the cache counters
arrive in the environment.  Personalization (personalizeTemplate) is a pure
total function, so the only fallible step in the per-recipient loop is the
queue publish; enqueueFails says for which campaign-lead id that call
throws.  Nothing in the loop catches: a throw propagates out of
processCampaign to the top-level POST handler, which answers 500. -/

structure LeadRow where
  id : Nat
  email : String
  deriving Repr, DecidableEq

/-- One campaign_leads row, with the joined lead (the join can be null). -/
structure CLRow where
  id : Nat
  status : String
  lead : Option LeadRow
  queued_at : Option Nat
  deriving Repr, DecidableEq

/-- The campaign columns the dispatch pipeline reads.  The send window
times are stored as HH:MM strings in the database; the code splits them on
the colon and converts both parts with Number, so they are modelled as the
(hour, minute) pairs that conversion yields.  delay_between_sends of 0 also
stands for a NULL column: both are falsy in the source expression
campaign.delay_between_sends || 60. -/
structure CampaignConfig where
  startHour : Nat
  startMin : Nat
  endHour : Nat
  endMin : Nat
  send_days : List Nat
  daily_limit : Nat
  delay_between_sends : Nat
  deriving Repr, DecidableEq

structure DispatchEnv where
  nowMinutes : Nat
  today : Nat
  warmupLimit : Option Nat
  dailyCount : Nat
  hourlyCount : Nat
  now : Nat
  enqueueFails : Nat → Bool

structure DispatchState where
  campaignStatus : String
  completedAt : Option Nat
  leads : List CLRow
  enqueued : List (Nat × Nat)
  deriving Repr, DecidableEq

/-- isWithinSendWindow (campaign-process/route.ts lines 183-196): both
bounds inclusive, everything in minutes of the day. -/
def isWithinSendWindow (nowMinutes startHour startMin endHour endMin : Nat) : Bool :=
  decide (startHour * 60 + startMin ≤ nowMinutes) &&
  decide (nowMinutes ≤ endHour * 60 + endMin)

/-- The effective daily cap (campaign-process/route.ts lines 84-87):
Math.min(campaign.daily_limit, warmup?.current_daily_limit || 50).
The JavaScript || yields 50 both when no active warm-up row was found and
when the row's current_daily_limit is the falsy 0. -/
def effectiveDailyLimit (dailyLimit : Nat) (warmupLimit : Option Nat) : Nat :=
  min dailyLimit (match warmupLimit with
    | some l => if l = 0 then 50 else l
    | none => 50)

/-- Mark one campaign_leads row queued (the update keyed on id inside the
loop, lines 166-174). -/
def markQueued (leads : List CLRow) (clId : Nat) (now : Nat) : List CLRow :=
  leads.map fun r =>
    if r.id = clId then { r with status := "queued", queued_at := some now } else r

/-- The per-recipient loop (campaign-process/route.ts lines 131-177) over
the fetched pending rows paired with their zero-based fetch position.
A row whose joined lead is null is skipped by continue.  Otherwise the
queue publish runs with delay = index * delayBetween; if it throws the
exception leaves processCampaign immediately with the state written so far,
else the row is marked queued and the counter advances. -/
def dispatchLoop (env : DispatchEnv) (delayBetween : Nat) :
    List (Nat × CLRow) → DispatchState → Nat → DispatchState × Except Unit Nat
  | [], s, queued => (s, Except.ok queued)
  | (i, cl) :: rest, s, queued =>
    match cl.lead with
    | none => dispatchLoop env delayBetween rest s queued
    | some _ =>
      if env.enqueueFails cl.id then (s, Except.error ())
      else
        dispatchLoop env delayBetween rest
          { s with
            enqueued := s.enqueued ++ [(cl.id, i * delayBetween)],
            leads := markQueued s.leads cl.id env.now }
          (queued + 1)

/-- The fetch of pending recipients: up to the effective cap many rows with
status pending (the select with .eq status pending and .limit cap). -/
def pendingBatch (c : CampaignConfig) (env : DispatchEnv) (s : DispatchState) : List CLRow :=
  (s.leads.filter fun r => r.status = "pending").take
    (effectiveDailyLimit c.daily_limit env.warmupLimit)

/-- The spacing actually used by the loop:
campaign.delay_between_sends || 60 (line 128). -/
def effectiveDelayBetween (c : CampaignConfig) : Nat :=
  if c.delay_between_sends = 0 then 60 else c.delay_between_sends

/-- processCampaign (campaign-process/route.ts lines 51-181): status gate,
send-window gate, weekday gate, effective cap from the warm-up row, rate
limiter gate, fetch of at most cap pending rows, completion transition when
no pending rows remain campaign-wide, and otherwise the staggered dispatch
loop. -/
def processCampaign (env : DispatchEnv) (c : CampaignConfig) (s : DispatchState) :
    DispatchState × Except Unit Nat :=
  if s.campaignStatus ≠ "active" then (s, Except.ok 0)
  else if isWithinSendWindow env.nowMinutes c.startHour c.startMin c.endHour c.endMin = false then
    (s, Except.ok 0)
  else if c.send_days.contains env.today = false then (s, Except.ok 0)
  else if canSendEmail env.dailyCount env.hourlyCount
      (effectiveDailyLimit c.daily_limit env.warmupLimit) = false then (s, Except.ok 0)
  else if pendingBatch c env s = [] then
    if (s.leads.filter fun r => r.status = "pending").length = 0 then
      ({ s with campaignStatus := "completed", completedAt := some env.now }, Except.ok 0)
    else (s, Except.ok 0)
  else dispatchLoop env (effectiveDelayBetween c) (pendingBatch c env s).enum s 0

/-- The messages one successful dispatch invocation publishes: one per
fetched row with a joined lead, delay equal to fetch position times the
effective spacing. -/
def batchMessages (c : CampaignConfig) (env : DispatchEnv) (s : DispatchState) :
    List (Nat × Nat) :=
  ((pendingBatch c env s).enum.filter fun p => p.2.lead.isSome).map
    fun p => (p.2.id, p.1 * effectiveDelayBetween c)

/-! ### Queue-callback authentication (campaign-process/route.ts lines
10-13 and email-send/route.ts lines 15-18)

Both job endpoints read the upstash-signature header, defaulting a missing
header to the empty string, and answer 401 exactly when NODE_ENV is
production and that string is falsy.  No other use is made of the header:
no Receiver verification runs in either handler (qstash/client.ts
verifySignature, lines 304-315, likewise returns the mere truthiness of
the string in production, and is not even called by these routes). -/

def campaignProcessAuthRejects (isProduction : Bool) (header : Option String) : Bool :=
  isProduction && decide (header.getD "" = "")

def emailSendAuthRejects (isProduction : Bool) (header : Option String) : Bool :=
  isProduction && decide (header.getD "" = "")

/-! ### Send-job handler (email-send/route.ts POST)

State for the one campaign_leads row named by the job, the owning
campaign's sent_count, the unsubscribes table (a list of stored email
addresses), the rate-limit counter, and the number of provider send calls
made.  The handler first looks the destination address up in unsubscribes;
a hit marks the row skipped and returns before any provider interaction.
Otherwise the provider is called; on error the row is marked failed, on
success it is marked sent, the campaign sent_count RPC runs (this call
site does use the p_ parameter names the SQL function declares), an
unsubscribe row is upserted and the counters are incremented. -/

structure SendJobRow where
  toAddr : String
  campaignLeadId : Nat
  deriving Repr, DecidableEq

structure SendState where
  leadStatus : String
  sentAt : Option Nat
  errorMessage : Option String
  campaignSentCount : Nat
  unsubEmails : List String
  rateCount : Nat
  providerCalls : Nat
  deriving Repr, DecidableEq

/-- Outcome of the provider call for this job, as seen by the handler. -/
inductive ProviderResult where
  | ok (messageId : Nat)
  | err (msg : String)
  deriving Repr, DecidableEq

def emailSendHandler (job : SendJobRow) (provider : ProviderResult) (now : Nat)
    (s : SendState) : SendState :=
  if s.unsubEmails.contains job.toAddr then
    { s with leadStatus := "skipped", errorMessage := some "Email is unsubscribed" }
  else
    let s1 := { s with providerCalls := s.providerCalls + 1 }
    match provider with
    | ProviderResult.err m =>
        { s1 with leadStatus := "failed", errorMessage := some m }
    | ProviderResult.ok _ =>
        let s2 := { s1 with leadStatus := "sent", sentAt := some now }
        let s3 := { s2 with campaignSentCount := s2.campaignSentCount + 1 }
        let s4 := if s3.unsubEmails.contains job.toAddr then s3
                  else { s3 with unsubEmails := s3.unsubEmails ++ [job.toAddr] }
        { s4 with rateCount := s4.rateCount + 1 }

/-! ### Open tracking: pixel endpoint and provider webhook

State for one campaign_leads row and its owning campaign's opened_count,
plus the append-only email_events log (event types only).

The increments go through PostgREST RPC.  The SQL functions (initial
migration, lines 304-339) are declared as
  increment_campaign_stat(p_campaign_id, p_stat_field)
  increment_opened_count(p_campaign_lead_id)
and PostgREST resolves an RPC call by function name AND the set of named
arguments in the request body; a call whose argument names do not match any
declared function fails, and since every call site discards the returned
error object, a mismatched call is a silent no-op on the database.  The
model therefore carries the literal argument names of each call site and
the RPC executes only when they equal the declared parameter names.

Call sites:
  * pixel endpoint (track/open route, lines 52-57):
      increment_campaign_stat with p_campaign_id / p_stat_field  -- matches
  * webhook (webhooks/resend route, line 221): increment_opened_count with
      campaign_lead_id                                           -- mismatch
  * webhook updateCampaignStats (lines 281-298):
      increment_campaign_stat with campaign_id / stat_field      -- mismatch
-/

structure TrackState where
  leadOpenedAt : Option Nat
  leadOpenedCount : Nat
  leadStatus : String
  campaignOpenedCount : Nat
  events : List String
  deriving Repr, DecidableEq

/-- increment_campaign_stat as reached through PostgREST: executes only
when called with the declared argument names; here only the opened_count
field of the tracked campaign is represented. -/
def rpcIncrementCampaignStat (argNames : List String) (statField : String)
    (s : TrackState) : TrackState :=
  if argNames = ["p_campaign_id", "p_stat_field"] then
    if statField = "opened_count" then
      { s with campaignOpenedCount := s.campaignOpenedCount + 1 }
    else s
  else s

/-- increment_opened_count as reached through PostgREST, same convention. -/
def rpcIncrementOpenedCount (argNames : List String) (s : TrackState) : TrackState :=
  if argNames = ["p_campaign_lead_id"] then
    { s with leadOpenedCount := s.leadOpenedCount + 1 }
  else s

/-- The tracking-pixel GET handler (track/open/[campaignLeadId] route,
lines 24-58) for a found campaign_leads row: log the event; bump the row's
own opened_count, stamping opened_at and status on the first open; and only
when opened_at was previously null, call the campaign aggregate RPC (with
the matching p_ argument names). -/
def trackOpenPixel (now : Nat) (s : TrackState) : TrackState :=
  let s1 := { s with events := s.events ++ ["opened"] }
  let s2 :=
    if s.leadOpenedAt.isNone then
      { s1 with
        leadOpenedCount := s1.leadOpenedCount + 1,
        leadOpenedAt := some now,
        leadStatus := "opened" }
    else { s1 with leadOpenedCount := s1.leadOpenedCount + 1 }
  if s.leadOpenedAt.isNone then
    rpcIncrementCampaignStat ["p_campaign_id", "p_stat_field"] "opened_count" s2
  else s2

/-- The webhook POST handler's email.opened branch (webhooks/resend route,
lines 199-269) for a found campaign_leads row: log the event; call
increment_opened_count with argument name campaign_lead_id; overwrite
status and opened_at unconditionally; then updateCampaignStats, which calls
increment_campaign_stat with argument names campaign_id / stat_field and no
first-open guard. -/
def webhookOpened (now : Nat) (s : TrackState) : TrackState :=
  let s1 := { s with events := s.events ++ ["opened"] }
  let s2 := rpcIncrementOpenedCount ["campaign_lead_id"] s1
  let s3 := { s2 with leadStatus := "opened", leadOpenedAt := some now }
  rpcIncrementCampaignStat ["campaign_id", "stat_field"] "opened_count" s3

/-! ### Domain warm-up progression (api/warmup/progress/route.ts)

The static schedule, the health thresholds, getExpectedLimit (iterating the
schedule from its last entry down and returning the first entry whose day
threshold is at or below the elapsed day, capped at the target; 10 when the
elapsed day precedes every entry), the health check (only evaluated once at
least 50 cumulative sends exist; the source compares percentage rates
computed in floating point, modelled here by the exact cross-multiplied
comparisons), and the per-record decision of the daily handler. -/

def WARMUP_SCHEDULE : List (Nat × Nat) :=
  [(1, 10), (3, 20), (5, 35), (7, 50), (10, 75), (14, 125), (18, 175),
   (21, 250), (25, 350), (28, 450), (32, 600), (35, 750), (40, 900), (45, 1000)]

def MIN_DELIVERABILITY_RATE : Nat := 95
def MAX_BOUNCE_RATE : Nat := 2
def MIN_EMAILS_FOR_HEALTH_CHECK : Nat := 50

/-- Scan of the reversed schedule: the source's downward for-loop. -/
def expectedLimitScan (day target : Nat) : List (Nat × Nat) → Nat
  | [] => 10
  | (d, l) :: rest => if day ≥ d then min l target else expectedLimitScan day target rest

def getExpectedLimit (day target : Nat) : Nat :=
  expectedLimitScan day target WARMUP_SCHEDULE.reverse

structure WarmupRow where
  warmup_day : Nat
  current_daily_limit : Nat
  target_daily_limit : Nat
  total_sent : Nat
  total_delivered : Nat
  total_bounced : Nat
  is_healthy : Bool
  status : String
  deriving Repr, DecidableEq

/-- The health evaluation (warmup/progress route, lines 377-388):
deliverability at least 95 percent and bounce rate at most 2 percent, with
rates as exact fractions; rows with fewer than 50 cumulative sends are
always considered healthy. -/
def warmupIsHealthy (w : WarmupRow) : Bool :=
  if w.total_sent ≥ MIN_EMAILS_FOR_HEALTH_CHECK then
    decide (100 * w.total_delivered ≥ MIN_DELIVERABILITY_RATE * w.total_sent) &&
    decide (100 * w.total_bounced ≤ MAX_BOUNCE_RATE * w.total_sent)
  else true

/-- One record's step of the daily progression handler (lines 366-432),
taking the recomputed elapsed day as input: first-match decision between
pause, completion, limit raise and no change, then the single write-back of
day, limit, health flag and status. -/
def progressWarmup (w : WarmupRow) (currentDay : Nat) : WarmupRow :=
  let expectedLimit := getExpectedLimit currentDay w.target_daily_limit
  let isHealthy := warmupIsHealthy w
  let pair :=
    if isHealthy = false then ("paused", w.current_daily_limit)
    else if w.current_daily_limit ≥ w.target_daily_limit then
      ("completed", w.target_daily_limit)
    else if expectedLimit > w.current_daily_limit then (w.status, expectedLimit)
    else (w.status, w.current_daily_limit)
  { w with
    warmup_day := currentDay,
    current_daily_limit := pair.2,
    is_healthy := isHealthy,
    status := pair.1 }

/-- The unhealthiness condition exactly as the claim states it: at least 50
cumulative sends and deliverability below 95 percent or bounce rate above 2
percent. -/
def warmupUnhealthySpec (w : WarmupRow) : Prop :=
  w.total_sent ≥ 50 ∧
    (100 * w.total_delivered < 95 * w.total_sent ∨
     100 * w.total_bounced > 2 * w.total_sent)

instance (w : WarmupRow) : Decidable (warmupUnhealthySpec w) := by
  unfold warmupUnhealthySpec; infer_instance

/-! ### Concrete instances used by witnesses and counterexamples -/

/-- A campaign lead that has never been opened, on a campaign with aggregate
opened_count 0. -/
def freshTrack : TrackState :=
  { leadOpenedAt := none, leadOpenedCount := 0, leadStatus := "sent",
    campaignOpenedCount := 0, events := [] }

/-- In-window environment: 10:00, Wednesday, no failures, counters at 0,
no warm-up row. -/
def baseEnv : DispatchEnv :=
  { nowMinutes := 600, today := 3, warmupLimit := none, dailyCount := 0,
    hourlyCount := 0, now := 1000, enqueueFails := fun _ => false }

/-- Same clock but the queue publish throws for campaign-lead id 1. -/
def failFirstEnv : DispatchEnv :=
  { baseEnv with enqueueFails := fun id => decide (id = 1) }

/-- Out-of-window environment: 20:00. -/
def lateEnv : DispatchEnv :=
  { baseEnv with nowMinutes := 1200 }

/-- A weekday campaign, window 09:00-17:00, daily limit 50, 60 second
spacing. -/
def demoCfg : CampaignConfig :=
  { startHour := 9, startMin := 0, endHour := 17, endMin := 0,
    send_days := [1, 2, 3, 4, 5], daily_limit := 50, delay_between_sends := 60 }

/-- The same campaign with a falsy (0 / NULL) delay_between_sends column. -/
def zeroDelayCfg : CampaignConfig :=
  { demoCfg with delay_between_sends := 0 }

/-- Two pending recipients with joined leads, nothing enqueued yet. -/
def twoPending : DispatchState :=
  { campaignStatus := "active", completedAt := none,
    leads :=
      [ { id := 1, status := "pending",
          lead := some { id := 10, email := "a@example.com" }, queued_at := none },
        { id := 2, status := "pending",
          lead := some { id := 11, email := "b@example.com" }, queued_at := none } ],
    enqueued := [] }

/-- The warm-up row of the spec scenario: 60 sent, 2 bounced (bounce rate
3.33 percent), 58 delivered, limit 10 of target 1000. -/
def bouncyWarmup : WarmupRow :=
  { warmup_day := 1, current_daily_limit := 10, target_daily_limit := 1000,
    total_sent := 60, total_delivered := 58, total_bounced := 2,
    is_healthy := true, status := "active" }

/-- A queued campaign lead whose address is in the unsubscribe store. -/
def queuedUnsubscribed : SendState :=
  { leadStatus := "queued", sentAt := none, errorMessage := none,
    campaignSentCount := 4, unsubEmails := ["a@example.com"], rateCount := 7,
    providerCalls := 0 }

/-! ### Helper lemmas: the template scanner -/

theorem replaceAux_nil (vars : List (List Char × List Char)) (fuel : Nat) :
    replaceAux vars fuel [] = [] := by
  cases fuel <;> rfl

/-- On text where the scanner finds no token, the replace pass is the
identity, fuel for fuel. -/
theorem replaceAux_of_no_token (vars : List (List Char × List Char)) :
    ∀ (fuel : Nat) (cs : List Char), hasTokenAux fuel cs = false →
      replaceAux vars fuel cs = cs := by
  intro fuel
  induction fuel with
  | zero => intro cs _; rfl
  | succ n ih =>
    intro cs h
    cases cs with
    | nil => rfl
    | cons c rest =>
      cases htok : matchToken (c :: rest) with
      | some p => simp [hasTokenAux, htok] at h
      | none =>
        simp only [hasTokenAux, htok] at h
        simp only [replaceAux, htok]
        rw [ih rest h]

theorem replaceVariables_of_no_token (t : String) (v : List (String × String))
    (h : hasToken t = false) : replaceVariables t v = t := by
  unfold hasToken at h
  unfold replaceVariables
  rw [replaceAux_of_no_token _ _ _ h]

/-- Inversion of a successful scanner match: the input starts with the
literal token text and the key is a non-empty run of word characters. -/
theorem matchToken_some {xs key after : List Char}
    (h : matchToken xs = some (key, after)) :
    xs = tokenText key ++ after ∧ key ≠ [] ∧ ∀ c ∈ key, isWordChar c = true := by
  unfold matchToken at h
  split at h
  · rename_i cs
    split at h
    · rename_i after0 hdrop
      split at h
      · exact absurd h (by simp)
      · rename_i hne
        injection h with h1
        injection h1 with hk ha
        subst hk; subst ha
        refine ⟨?_, hne, fun c hc => List.mem_takeWhile_imp hc⟩
        have hsplit := List.takeWhile_append_dropWhile isWordChar cs
        simp only [tokenText, List.append_assoc, List.cons_append, List.nil_append]
        rw [← hdrop, hsplit]
    · exact absurd h (by simp)
  · exact absurd h (by simp)

theorem matchToken_some_length {xs key after : List Char}
    (h : matchToken xs = some (key, after)) : after.length + 5 ≤ xs.length := by
  obtain ⟨hx, hne, -⟩ := matchToken_some h
  subst hx
  have : 1 ≤ key.length := by
    cases key with
    | nil => exact absurd rfl hne
    | cons a l => simp
  simp [tokenText]
  omega

/-- The scanner result does not depend on the fuel as long as the fuel
covers the length of the text. -/
theorem replaceAux_fuel (vars : List (List Char × List Char)) :
    ∀ (f1 : Nat) (cs : List Char) (f2 : Nat), cs.length ≤ f1 → cs.length ≤ f2 →
      replaceAux vars f1 cs = replaceAux vars f2 cs := by
  intro f1
  induction f1 with
  | zero =>
    intro cs f2 h1 _
    have hnil : cs = [] := List.eq_nil_of_length_eq_zero (Nat.le_zero.mp h1)
    subst hnil
    rw [replaceAux_nil, replaceAux_nil]
  | succ n ih =>
    intro cs f2 h1 h2
    cases cs with
    | nil => rw [replaceAux_nil, replaceAux_nil]
    | cons c rest =>
      cases f2 with
      | zero => simp at h2
      | succ m =>
        cases htok : matchToken (c :: rest) with
        | none =>
          simp only [replaceAux, htok]
          rw [ih rest m (by simpa using h1) (by simpa using h2)]
        | some p =>
          obtain ⟨key, after⟩ := p
          have hlen := matchToken_some_length htok
          simp only [List.length_cons] at hlen h1 h2
          simp only [replaceAux, htok]
          rw [ih after m (by omega) (by omega)]

theorem takeWhile_word_append (key rest : List Char)
    (hw : ∀ c ∈ key, isWordChar c = true) :
    (key ++ '}' :: rest).takeWhile isWordChar = key ∧
    (key ++ '}' :: rest).dropWhile isWordChar = '}' :: rest := by
  induction key with
  | nil =>
    constructor
    · simp [List.takeWhile_cons, isWordChar]
    · simp [List.dropWhile_cons, isWordChar]
  | cons a l ih =>
    have ha : isWordChar a = true := hw a (by simp)
    have hl : ∀ c ∈ l, isWordChar c = true := fun c hc => hw c (by simp [hc])
    obtain ⟨iht, ihd⟩ := ih hl
    constructor
    · simp [List.takeWhile_cons, ha, iht]
    · simp [List.dropWhile_cons, ha, ihd]

/-- The scanner does match a well-formed token placed at the head of the
text, capturing exactly its key. -/
theorem matchToken_mk (key rest : List Char) (hne : key ≠ [])
    (hw : ∀ c ∈ key, isWordChar c = true) :
    matchToken (tokenText key ++ rest) = some (key, rest) := by
  obtain ⟨ht, hd⟩ := takeWhile_word_append key ('}' :: rest) hw
  have hshape : tokenText key ++ rest = '{' :: '{' :: (key ++ '}' :: '}' :: rest) := by
    simp [tokenText]
  rw [hshape]
  simp only [matchToken, hd, ht]
  simp [hne]

/-- Behaviour of the replace pass at a token: substitute exactly when the
key has a non-empty binding, otherwise keep the token text, and in all
cases continue scanning after the token. -/
theorem replaceAux_token (vars : List (List Char × List Char))
    (fuel : Nat) (key rest : List Char) (hne : key ≠ [])
    (hw : ∀ c ∈ key, isWordChar c = true) (hfuel : rest.length ≤ fuel) :
    replaceAux vars (fuel + 1) (tokenText key ++ rest) =
      (match lookupVar vars key with
       | some v => if v = [] then tokenText key else v
       | none => tokenText key) ++ replaceAux vars rest.length rest := by
  have hshape : tokenText key ++ rest = '{' :: '{' :: (key ++ '}' :: '}' :: rest) := by
    simp [tokenText]
  rw [hshape]
  have hmt : matchToken ('{' :: '{' :: (key ++ '}' :: '}' :: rest)) = some (key, rest) := by
    rw [← hshape]; exact matchToken_mk key rest hne hw
  simp only [replaceAux, hmt]
  have hfix : replaceAux vars fuel rest = replaceAux vars rest.length rest :=
    replaceAux_fuel vars fuel rest rest.length hfuel (Nat.le_refl _)
  cases hlv : lookupVar vars key with
  | none => rw [hfix]
  | some v =>
    by_cases hv : v = []
    · simp [hv, hfix]
    · simp [hv, hfix]

/-! ### Helper lemmas: the dispatch loop -/

/-- When no queue publish throws, the loop appends one message per fetched
row with a joined lead, the delay of the row at fetch position i being
i * delayBetween, and returns the number of rows so processed. -/
theorem dispatchLoop_no_fail (env : DispatchEnv) (d : Nat) :
    ∀ (items : List (Nat × CLRow)) (s : DispatchState) (q : Nat),
      (∀ p ∈ items, env.enqueueFails p.2.id = false) →
      (dispatchLoop env d items s q).1.enqueued =
        s.enqueued ++
          ((items.filter fun p => p.2.lead.isSome).map fun p => (p.2.id, p.1 * d)) ∧
      (dispatchLoop env d items s q).2 =
        Except.ok (q + (items.filter fun p => p.2.lead.isSome).length) := by
  intro items
  induction items with
  | nil => intro s q _; simp [dispatchLoop]
  | cons hd tl ih =>
    intro s q hok
    obtain ⟨i, cl⟩ := hd
    have hclok : env.enqueueFails cl.id = false := hok (i, cl) (by simp)
    have htl : ∀ p ∈ tl, env.enqueueFails p.2.id = false :=
      fun p hp => hok p (by simp [hp])
    cases hl : cl.lead with
    | none =>
      have := ih s q htl
      simp only [dispatchLoop, hl]
      simpa [hl] using this
    | some l =>
      simp only [dispatchLoop, hl, hclok, Bool.false_eq_true, if_neg, reduceIte]
      have := ih { s with
          enqueued := s.enqueued ++ [(cl.id, i * d)],
          leads := markQueued s.leads cl.id env.now } (q + 1) htl
      obtain ⟨h1, h2⟩ := this
      constructor
      · rw [h1]; simp [hl, List.append_assoc]
      · rw [h2]; simp [hl]; omega

/-- In the abort case nothing at or after the failing row is touched. -/
theorem dispatchLoop_fail_head (env : DispatchEnv) (d i : Nat) (cl : CLRow)
    (rest : List (Nat × CLRow)) (s : DispatchState) (q : Nat)
    (hlead : cl.lead.isSome = true) (hfail : env.enqueueFails cl.id = true) :
    dispatchLoop env d ((i, cl) :: rest) s q = (s, Except.error ()) := by
  obtain ⟨l, hl⟩ := Option.isSome_iff_exists.mp hlead
  simp [dispatchLoop, hl, hfail]

/-- Fetch positions of the surviving rows are strictly increasing, hence so
are their delays whenever the spacing is positive. -/
theorem enum_filter_delays_increasing (rows : List CLRow)
    (pf : Nat × CLRow → Bool) (d : Nat) (hd : 0 < d) :
    List.Pairwise (fun a b => a.2 < b.2)
      ((rows.enum.filter pf).map fun p => (p.2.id, p.1 * d)) := by
  have h0 : List.Pairwise (fun a b : Nat × CLRow => a.1 < b.1) rows.enum := by
    have := List.pairwise_lt_range rows.length
    rw [← List.enum_map_fst rows] at this
    exact List.pairwise_map.mp this
  have h1 : List.Pairwise (fun a b : Nat × CLRow => a.1 < b.1) (rows.enum.filter pf) :=
    List.Pairwise.filter pf h0
  rw [List.pairwise_map]
  exact h1.imp fun h => (Nat.mul_lt_mul_right hd).mpr h

/-! ### Helper lemmas: warm-up health -/

/-- The boolean health evaluation is false exactly under the claim's
unhealthiness condition. -/
theorem warmupIsHealthy_eq_false_iff (w : WarmupRow) :
    warmupIsHealthy w = false ↔ warmupUnhealthySpec w := by
  unfold warmupIsHealthy warmupUnhealthySpec MIN_EMAILS_FOR_HEALTH_CHECK
    MIN_DELIVERABILITY_RATE MAX_BOUNCE_RATE
  by_cases hs : w.total_sent ≥ 50
  · rw [if_pos hs]
    rw [Bool.and_eq_false_iff, decide_eq_false_iff_not, decide_eq_false_iff_not]
    constructor
    · intro h
      exact ⟨hs, by omega⟩
    · intro h
      omega
  · rw [if_neg hs]
    simp only [Bool.true_eq_false, false_iff]
    intro h
    exact hs h.1

/-! ### Claim theorems -/

/-- C6 counterexample.  The claim says replaceVariables substitutes a token
whose identifier is a key of the map even when the mapped value is the
empty string.  In the source the callback returns variables[key] || match
and the empty string is falsy, so a key bound to the empty string leaves
the token in place: on text consisting of the lastName token with lastName
bound to the empty string the result is the unchanged token, not the empty
string. -/
theorem claim_C6_counterexample :
    replaceVariables "\x7b\x7blastName\x7d\x7d" [("lastName", "")] =
      "\x7b\x7blastName\x7d\x7d" ∧
    ("\x7b\x7blastName\x7d\x7d" : String) ≠ "" := by
  decide

/-- C6 (amended).  For a well-formed token (non-empty key of word
characters) at the head of the text, replaceVariables substitutes the
mapped value verbatim exactly when the key is bound to a non-empty value;
a key bound to the empty string, like an absent key, leaves the token text
unchanged; in every case scanning continues after the token and no error
is raised (the function is total). -/
theorem claim_C6_amended (key rest : String) (vars : List (String × String))
    (hne : key.data ≠ []) (hw : ∀ c ∈ key.data, isWordChar c = true) :
    replaceVariables (String.mk (tokenText key.data) ++ rest) vars =
      String.mk
        (match lookupVar (vars.map fun p => (p.1.data, p.2.data)) key.data with
         | some v => if v = [] then tokenText key.data else v
         | none => tokenText key.data) ++ replaceVariables rest vars := by
  have hdata : (String.mk (tokenText key.data) ++ rest).data
      = tokenText key.data ++ rest.data := by
    rw [String.data_append]
  unfold replaceVariables
  rw [hdata]
  have hlen : (tokenText key.data ++ rest.data).length
      = (key.data.length + rest.data.length + 3) + 1 := by
    simp only [tokenText, List.length_append, List.length_cons, List.length_nil]
    omega
  rw [hlen]
  rw [replaceAux_token _ _ _ _ hne hw (by omega)]
  rfl

/-- C6 witness: the firstName token bound to a non-empty value is
substituted and scanning continues into the remaining text. -/
theorem claim_C6_amended_witness :
    replaceVariables "\x7b\x7bfirstName\x7d\x7d, hi" [("firstName", "Ana")] =
      "Ana, hi" := by
  have h := claim_C6_amended "firstName" ", hi" [("firstName", "Ana")]
    (by decide) (by decide)
  have heq : String.mk (tokenText ("firstName" : String).data) ++ ", hi" =
      "\x7b\x7bfirstName\x7d\x7d, hi" := by decide
  rw [heq] at h
  rw [h]
  decide

/-- C7 counterexample.  The claim asserts the round trip
replaceVariables (replaceVariables t v) v = replaceVariables t v whenever
every token of t has its identifier in v.  With t the single token for key
a and v binding a to the literal token text for key b and b to X, every
token of t is bound in v, yet the first pass produces the b token and the
second pass rewrites it to X, so the round trip fails. -/
theorem claim_C7_counterexample :
    (∀ k ∈ extractTokens "\x7b\x7ba\x7d\x7d",
        (lookupVar ([("a", "\x7b\x7bb\x7d\x7d"), ("b", "X")].map
            fun p => (p.1.data, p.2.data)) k).isSome = true) ∧
    replaceVariables
        (replaceVariables "\x7b\x7ba\x7d\x7d" [("a", "\x7b\x7bb\x7d\x7d"), ("b", "X")])
        [("a", "\x7b\x7bb\x7d\x7d"), ("b", "X")] ≠
      replaceVariables "\x7b\x7ba\x7d\x7d" [("a", "\x7b\x7bb\x7d\x7d"), ("b", "X")] := by
  decide

/-- C7 (amended).  replaceVariables is the identity on text in which the
scanner finds no token, and the round trip holds whenever the FIRST pass
output is token-free (substituted values can introduce new tokens, which is
exactly what the counterexample exploits; when they do not, the second pass
changes nothing). -/
theorem claim_C7_amended (t : String) (v : List (String × String)) :
    (hasToken t = false → replaceVariables t v = t) ∧
    (hasToken (replaceVariables t v) = false →
      replaceVariables (replaceVariables t v) v = replaceVariables t v) :=
  ⟨replaceVariables_of_no_token t v,
   fun h => replaceVariables_of_no_token (replaceVariables t v) v h⟩

/-- C7 witness: token-free text is returned unchanged. -/
theorem claim_C7_amended_witness :
    replaceVariables "no tokens here" [("a", "b")] = "no tokens here" :=
  (claim_C7_amended "no tokens here" [("a", "b")]).1 (by decide)

/-- C3 counterexample.  The claim says the effective cap equals
min(daily_limit, current_daily_limit) whenever an active warm-up row
exists.  The source computes Math.min(daily_limit,
warmup?.current_daily_limit || 50), and 0 is falsy in JavaScript, so an
active row whose current_daily_limit is 0 yields a cap of 50, not
min(100, 0) = 0. -/
theorem claim_C3_counterexample :
    effectiveDailyLimit 100 (some 0) = 50 ∧
    effectiveDailyLimit 100 (some 0) ≠ min 100 0 := by
  decide

/-- C3 (amended).  The effective cap is min(daily_limit,
current_daily_limit) for every active warm-up row whose current limit is
non-zero; when no row exists, or the row's limit is the falsy 0, it is
min(daily_limit, 50); in particular daily_limit 50 with warm-up limit 10
caps at 10. -/
theorem claim_C3_amended (dl l : Nat) :
    (l ≠ 0 → effectiveDailyLimit dl (some l) = min dl l) ∧
    effectiveDailyLimit dl none = min dl 50 ∧
    effectiveDailyLimit dl (some 0) = min dl 50 ∧
    effectiveDailyLimit 50 (some 10) = 10 := by
  refine ⟨fun h => ?_, rfl, rfl, rfl⟩
  simp [effectiveDailyLimit, h]

/-- C3 witness: the spec's own instance, daily_limit 50 and warm-up limit
10 give cap 10. -/
theorem claim_C3_amended_witness :
    effectiveDailyLimit 50 (some 10) = min 50 10 :=
  (claim_C3_amended 50 10).1 (by decide)

/-- C10.  In production both queue-callback job endpoints reject with 401
exactly when the upstash-signature header is missing or empty, and any
request with a non-empty header value of whatever content is accepted: the
handlers perform no cryptographic check on the value. -/
theorem claim_C10 (h : Option String) :
    (campaignProcessAuthRejects true h = true ↔ h = none ∨ h = some "") ∧
    (emailSendAuthRejects true h = true ↔ h = none ∨ h = some "") ∧
    ∀ s : String, s ≠ "" →
      campaignProcessAuthRejects true (some s) = false ∧
      emailSendAuthRejects true (some s) = false := by
  refine ⟨?_, ?_, ?_⟩
  · cases h <;> simp [campaignProcessAuthRejects]
  · cases h <;> simp [emailSendAuthRejects]
  · intro s hs
    constructor <;> simp [campaignProcessAuthRejects, emailSendAuthRejects, hs]

/-- C10 witness: an arbitrary non-empty signature value passes both
checks. -/
theorem claim_C10_witness :
    campaignProcessAuthRejects true (some "anything") = false ∧
    emailSendAuthRejects true (some "anything") = false :=
  (claim_C10 (some "anything")).2.2 "anything" (by decide)

/-- C1 counterexample.  The claim says the first open event processed for a
CampaignLead, whether via the pixel or via a provider email.opened webhook
event, increments the owning campaign's opened_count by exactly 1.  On a
never-opened lead the webhook handler leaves the campaign counter at 0 (and
the per-recipient counter too): its RPC calls pass argument names
campaign_lead_id and campaign_id / stat_field, which match no declared SQL
function parameter list (they are p_campaign_lead_id and p_campaign_id /
p_stat_field), so both increments fail silently; moreover the aggregate
call is issued without any first-open guard. -/
theorem claim_C1_counterexample :
    (webhookOpened 5 freshTrack).campaignOpenedCount ≠
      freshTrack.campaignOpenedCount + 1 ∧
    (webhookOpened 5 freshTrack).leadOpenedCount ≠
      freshTrack.leadOpenedCount + 1 := by
  decide

/-- C1 (amended).  Via the tracking pixel, the first open increments the
campaign's opened_count by exactly 1 and stamps the row, every later pixel
open leaves the aggregate unchanged while still incrementing the
recipient's own opened_count; via the provider webhook, an open event
updates status and opened_at but increments neither counter, because both
RPC call sites use argument names that match no declared SQL function. -/
theorem claim_C1_amended (now t : Nat) (s : TrackState) :
    (s.leadOpenedAt = none →
        (trackOpenPixel now s).campaignOpenedCount = s.campaignOpenedCount + 1 ∧
        (trackOpenPixel now s).leadOpenedCount = s.leadOpenedCount + 1 ∧
        (trackOpenPixel now s).leadOpenedAt = some now ∧
        (trackOpenPixel now s).leadStatus = "opened") ∧
    (s.leadOpenedAt = some t →
        (trackOpenPixel now s).campaignOpenedCount = s.campaignOpenedCount ∧
        (trackOpenPixel now s).leadOpenedCount = s.leadOpenedCount + 1) ∧
    ((webhookOpened now s).campaignOpenedCount = s.campaignOpenedCount ∧
     (webhookOpened now s).leadOpenedCount = s.leadOpenedCount ∧
     (webhookOpened now s).leadStatus = "opened" ∧
     (webhookOpened now s).leadOpenedAt = some now) := by
  refine ⟨fun h => ?_, fun h => ?_, ?_⟩
  · simp [trackOpenPixel, rpcIncrementCampaignStat, h]
  · simp [trackOpenPixel, rpcIncrementCampaignStat, h]
  · simp [webhookOpened, rpcIncrementCampaignStat, rpcIncrementOpenedCount]

/-- C1 witness: first pixel open on a fresh lead bumps the aggregate by
exactly one. -/
theorem claim_C1_amended_witness :
    (trackOpenPixel 7 freshTrack).campaignOpenedCount =
      freshTrack.campaignOpenedCount + 1 ∧
    (trackOpenPixel 7 freshTrack).leadOpenedCount =
      freshTrack.leadOpenedCount + 1 ∧
    (trackOpenPixel 7 freshTrack).leadOpenedAt = some 7 ∧
    (trackOpenPixel 7 freshTrack).leadStatus = "opened" :=
  (claim_C1_amended 7 0 freshTrack).1 rfl

/-- C2 counterexample.  The claim says a per-recipient enqueue failure is
caught and processing continues with the remaining fetched recipients,
surfacing the aggregate queued count.  With two pending recipients and the
queue publish throwing for the first, processCampaign aborts with the
exception: the second recipient is never processed (both stay pending,
nothing is enqueued) and no count is returned. -/
theorem claim_C2_counterexample :
    (processCampaign failFirstEnv demoCfg twoPending).2 = Except.error () ∧
    (processCampaign failFirstEnv demoCfg twoPending).1.leads.map CLRow.status =
      ["pending", "pending"] ∧
    (processCampaign failFirstEnv demoCfg twoPending).1.enqueued = [] := by
  exact ⟨rfl, rfl, rfl⟩

/-- C2 (amended).  There is no per-recipient catch in the loop: when the
queue publish throws for the recipient at the head of the remaining batch,
the loop returns the exception with the state exactly as it was, so that
recipient stays pending (it is not marked queued), every later fetched
recipient is left unprocessed, and no aggregate queued count is produced
(the top-level handler answers 500); recipients processed before the
failure keep their queued status. -/
theorem claim_C2_amended (env : DispatchEnv) (d i : Nat) (cl : CLRow)
    (rest : List (Nat × CLRow)) (s : DispatchState) (q : Nat)
    (hlead : cl.lead.isSome = true) (hfail : env.enqueueFails cl.id = true) :
    dispatchLoop env d ((i, cl) :: rest) s q = (s, Except.error ()) := by
  obtain ⟨l, hl⟩ := Option.isSome_iff_exists.mp hlead
  simp [dispatchLoop, hl, hfail]

/-- C2 witness: the loop aborts untouched on a throwing first recipient. -/
theorem claim_C2_amended_witness :
    dispatchLoop failFirstEnv 60
      [(0, { id := 1, status := "pending",
             lead := some { id := 10, email := "a@example.com" },
             queued_at := none }),
       (1, { id := 2, status := "pending",
             lead := some { id := 11, email := "b@example.com" },
             queued_at := none })] twoPending 0 = (twoPending, Except.error ()) :=
  claim_C2_amended failFirstEnv 60 0 _ _ twoPending 0 (by decide) (by decide)

/-- C4.  For an active warm-up record the daily progression applies the
claimed precedence, first match winning: unhealthy (at least 50 cumulative
sends and deliverability below 95 percent or bounce rate above 2 percent)
pauses the record and leaves its current limit unchanged; otherwise a
current limit at or above target completes it; otherwise a table-derived
limit for the elapsed day (capped at target) above the current limit
raises the current limit to that value; otherwise limit and status are
unchanged.  Every branch writes back the recomputed day and health flag. -/
theorem claim_C4 (w : WarmupRow) (currentDay : Nat) (hs : w.status = "active") :
    (warmupUnhealthySpec w →
        (progressWarmup w currentDay).status = "paused" ∧
        (progressWarmup w currentDay).current_daily_limit = w.current_daily_limit) ∧
    (¬ warmupUnhealthySpec w → w.current_daily_limit ≥ w.target_daily_limit →
        (progressWarmup w currentDay).status = "completed") ∧
    (¬ warmupUnhealthySpec w → w.current_daily_limit < w.target_daily_limit →
        getExpectedLimit currentDay w.target_daily_limit > w.current_daily_limit →
        (progressWarmup w currentDay).current_daily_limit =
          getExpectedLimit currentDay w.target_daily_limit ∧
        (progressWarmup w currentDay).status = "active") ∧
    (¬ warmupUnhealthySpec w → w.current_daily_limit < w.target_daily_limit →
        getExpectedLimit currentDay w.target_daily_limit ≤ w.current_daily_limit →
        (progressWarmup w currentDay).current_daily_limit = w.current_daily_limit ∧
        (progressWarmup w currentDay).status = "active") ∧
    (progressWarmup w currentDay).warmup_day = currentDay ∧
    ((progressWarmup w currentDay).is_healthy = true ↔ ¬ warmupUnhealthySpec w) := by
  have hiff := warmupIsHealthy_eq_false_iff w
  by_cases hu : warmupUnhealthySpec w
  · have hF : warmupIsHealthy w = false := hiff.mpr hu
    refine ⟨fun _ => ?_, fun hnu => absurd hu hnu, fun hnu => absurd hu hnu,
      fun hnu => absurd hu hnu, ?_, ?_⟩
    · simp [progressWarmup, hF]
    · simp [progressWarmup]
    · simp [progressWarmup, hF, hu]
  · have hT : warmupIsHealthy w = true := by
      cases hB : warmupIsHealthy w
      · exact absurd (hiff.mp hB) hu
      · rfl
    refine ⟨fun hspec => absurd hspec hu, fun _ hct => ?_, fun _ hlt hexp => ?_,
      fun _ hlt hexp => ?_, ?_, ?_⟩
    · simp [progressWarmup, hT, hct]
    · constructor
      · simp [progressWarmup, hT, Nat.not_le.mpr hlt, hexp]
      · simp [progressWarmup, hT, Nat.not_le.mpr hlt, hexp, hs]
    · constructor
      · simp [progressWarmup, hT, Nat.not_le.mpr hlt, Nat.not_lt.mpr hexp]
      · simp [progressWarmup, hT, Nat.not_le.mpr hlt, Nat.not_lt.mpr hexp, hs]
    · simp [progressWarmup]
    · simp [progressWarmup, hT, hu]

/-- C4 witness: the spec scenario, 60 sent with 2 bounced (bounce rate
above 2 percent) on an active record, pauses it and leaves the limit at
10. -/
theorem claim_C4_witness :
    (progressWarmup bouncyWarmup 3).status = "paused" ∧
    (progressWarmup bouncyWarmup 3).current_daily_limit =
      bouncyWarmup.current_daily_limit :=
  (claim_C4 bouncyWarmup 3 rfl).1 (by decide)

/-- C5.  Whenever the destination address of a send job is present in the
unsubscribe store, the send-job handler marks the CampaignLead skipped with
the unsubscribed error message and changes nothing else; in particular the
provider is never called, whatever the row's previous status (including
queued). -/
theorem claim_C5 (job : SendJobRow) (provider : ProviderResult) (now : Nat)
    (s : SendState) (h : s.unsubEmails.contains job.toAddr = true) :
    emailSendHandler job provider now s =
      { s with leadStatus := "skipped",
               errorMessage := some "Email is unsubscribed" } ∧
    (emailSendHandler job provider now s).providerCalls = s.providerCalls := by
  have hm : job.toAddr ∈ s.unsubEmails := by simpa using h
  constructor
  · simp [emailSendHandler, hm]
  · simp [emailSendHandler, hm]

/-- C5 witness: a queued lead whose address is unsubscribed is skipped
without a provider call. -/
theorem claim_C5_witness :
    emailSendHandler { toAddr := "a@example.com", campaignLeadId := 3 }
        (ProviderResult.ok 9) 42 queuedUnsubscribed =
      { queuedUnsubscribed with
          leadStatus := "skipped",
          errorMessage := some "Email is unsubscribed" } ∧
    (emailSendHandler { toAddr := "a@example.com", campaignLeadId := 3 }
        (ProviderResult.ok 9) 42 queuedUnsubscribed).providerCalls =
      queuedUnsubscribed.providerCalls :=
  claim_C5 { toAddr := "a@example.com", campaignLeadId := 3 }
    (ProviderResult.ok 9) 42 queuedUnsubscribed (by decide)

/-- C8.  For an active campaign, when the current time of day lies outside
the inclusive send window, or the current weekday is not in the campaign's
allowed set, processCampaign returns queued count 0 and the state exactly
as it was: no CampaignLead changes status, nothing is enqueued, and the
campaign stays active. -/
theorem claim_C8 (env : DispatchEnv) (c : CampaignConfig) (s : DispatchState)
    (hactive : s.campaignStatus = "active")
    (h : (env.nowMinutes < c.startHour * 60 + c.startMin ∨
          c.endHour * 60 + c.endMin < env.nowMinutes) ∨
         env.today ∉ c.send_days) :
    processCampaign env c s = (s, Except.ok 0) := by
  unfold processCampaign
  rw [if_neg (by simp [hactive])]
  rcases h with hwin | hday
  · have hw : isWithinSendWindow env.nowMinutes c.startHour c.startMin
        c.endHour c.endMin = false := by
      simp only [isWithinSendWindow, Bool.and_eq_false_iff,
        decide_eq_false_iff_not, Nat.not_le]
      omega
    rw [if_pos hw]
  · have hd : c.send_days.contains env.today = false := by
      simpa using hday
    by_cases hwin2 : isWithinSendWindow env.nowMinutes c.startHour c.startMin
        c.endHour c.endMin = false
    · rw [if_pos hwin2]
    · rw [if_neg hwin2, if_pos hd]

/-- C8 witness: at 20:00 against a 09:00 to 17:00 window, the invocation
queues nothing and leaves the two pending recipients and the active status
untouched. -/
theorem claim_C8_witness :
    processCampaign lateEnv demoCfg twoPending = (twoPending, Except.ok 0) :=
  claim_C8 lateEnv demoCfg twoPending rfl (Or.inl (Or.inr (by decide)))

/-- C9 counterexample.  The claim prescribes delay exactly
i * delay_between_sends for the recipient at fetch position i, for every
campaign.  For a campaign whose delay_between_sends column is the falsy 0
(or NULL), the source substitutes 60, so the recipient at position 1 is
enqueued with delay 60 while the claim prescribes 1 * 0 = 0. -/
theorem claim_C9_counterexample :
    (processCampaign baseEnv zeroDelayCfg twoPending).1.enqueued =
      [(1, 0), (2, 60)] ∧
    1 * zeroDelayCfg.delay_between_sends = 0 ∧ (60 : Nat) ≠ 0 := by
  exact ⟨rfl, rfl, by decide⟩

/-- C9 (amended).  On an invocation that reaches the dispatch loop and in
which no queue publish throws, the messages published are exactly one per
fetched pending row with a joined lead, the row at zero-based fetch
position i carrying delay i * d where d is delay_between_sends when that
column is non-zero and 60 otherwise (the first recipient gets delay 0);
d is positive, so the delays across the batch are strictly increasing. -/
theorem claim_C9_amended (env : DispatchEnv) (c : CampaignConfig) (s : DispatchState)
    (hnf : ∀ r ∈ s.leads, env.enqueueFails r.id = false)
    (hactive : s.campaignStatus = "active")
    (hwin : isWithinSendWindow env.nowMinutes c.startHour c.startMin
        c.endHour c.endMin = true)
    (hday : c.send_days.contains env.today = true)
    (hcan : canSendEmail env.dailyCount env.hourlyCount
        (effectiveDailyLimit c.daily_limit env.warmupLimit) = true)
    (hne : pendingBatch c env s ≠ []) :
    (processCampaign env c s).1.enqueued = s.enqueued ++ batchMessages c env s ∧
    0 < effectiveDelayBetween c ∧
    List.Pairwise (fun a b => a.2 < b.2) (batchMessages c env s) := by
  have hdpos : 0 < effectiveDelayBetween c := by
    unfold effectiveDelayBetween
    by_cases h0 : c.delay_between_sends = 0
    · simp [h0]
    · simp [h0]; omega
  have hmemday : env.today ∈ c.send_days := by simpa using hday
  have hstep : processCampaign env c s =
      dispatchLoop env (effectiveDelayBetween c) (pendingBatch c env s).enum s 0 := by
    unfold processCampaign
    rw [if_neg (by simp [hactive]), if_neg (by simp [hwin]),
      if_neg (by simp [hmemday]), if_neg (by simp [hcan]), if_neg hne]
  have hok : ∀ p ∈ (pendingBatch c env s).enum, env.enqueueFails p.2.id = false := by
    intro p hp
    obtain ⟨-, hx⟩ := List.mem_enum hp
    have hmem : p.2 ∈ pendingBatch c env s := by
      rw [hx]; exact List.getElem_mem _
    have hmem2 : p.2 ∈ s.leads := by
      have := List.take_subset _ _ hmem
      exact (List.mem_filter.mp this).1
    exact hnf p.2 hmem2
  obtain ⟨h1, -⟩ := dispatchLoop_no_fail env (effectiveDelayBetween c)
    (pendingBatch c env s).enum s 0 hok
  refine ⟨?_, hdpos, ?_⟩
  · rw [hstep, h1]; rfl
  · exact enum_filter_delays_increasing (pendingBatch c env s) _ _ hdpos

/-- C9 witness: two pending recipients with 60 second spacing get delays 0
and 60, strictly increasing. -/
theorem claim_C9_amended_witness :
    (processCampaign baseEnv demoCfg twoPending).1.enqueued =
      twoPending.enqueued ++ batchMessages demoCfg baseEnv twoPending ∧
    0 < effectiveDelayBetween demoCfg ∧
    List.Pairwise (fun a b => a.2 < b.2) (batchMessages demoCfg baseEnv twoPending) :=
  claim_C9_amended baseEnv demoCfg twoPending (by decide) rfl (by decide)
    (by decide) (by decide) (by decide)

end MarketingOS
